import Mathlib

/-!
Verification of the multicast transmit pipeline (`modules/multicast/source.c`)
against its natural-language specification.  The definitions below are a
shallow embedding of the C code: pure data flow becomes Lean functions,
external collaborators (codec, capture/file drivers, resampler library,
send callback, configuration store) become explicit parameters holding the
outcome of each external call, and C integer arithmetic on `uint32_t`
fields is carried out on `Nat` with explicit reduction modulo `2^32`.
-/

namespace Mcsource

/-- Modulus of 32-bit unsigned arithmetic (`uint32_t`). -/
def U32 : Nat := 4294967296

/-- Packetization interval in milliseconds.  The macro `PTIME` comes from
`multicast.h`, which is not part of the sources at hand; the spec fixes one
packet-time per transmitted packet, and none of the theorems below depend
on the numeric value. -/
def PTIME : Nat := 20

/-- Errno value `EINVAL` (invalid argument). -/
def EINVAL : Nat := 22

/-- Errno value `ENOMEM` (out of memory). -/
def ENOMEM : Nat := 12

/-- Errno value `ENOTSUP` (operation not supported). -/
def ENOTSUP : Nat := 95

/-- Audio sample format code (libre `enum aufmt`). -/
abbrev Aufmt := Nat

/-- Format code `AUFMT_S16LE`, the first enumerator of libre's
`enum aufmt`, hence also the value a zero-filled `fmt` field holds. -/
def AUFMT_S16LE : Aufmt := 0

/-- Fields of `struct aucodec` that `source.c` reads: working sample rate
`srate`, RTP clock rate `crate` and channel count `ch`. -/
structure Aucodec where
  srate : Nat
  crate : Nat
  ch    : Nat
deriving Repr, DecidableEq

/-- Outputs of one call of the codec encode callback `ac->ench`: the
integer return code, the payload length it stored through the `len`
pointer, and the marker value it left through the `marker` pointer (the
callback receives `&src->rtp_marker` and may rewrite it).  The codec is an
external collaborator. -/
structure EncResult where
  err    : Nat
  len    : Nat
  marker : Bool
deriving Repr, DecidableEq

/-- RTP staging state of `struct mcsource`: the 32-bit extended timestamp
`ts_ext` and the marker flag `rtp_marker`. -/
structure RtpState where
  tsExt  : Nat
  marker : Bool
deriving Repr, DecidableEq

/-- Arguments handed to the send callback `sendh` when it is invoked:
extension length, marker flag, 32-bit RTP timestamp and payload length. -/
structure SentPacket where
  extLen : Nat
  marker : Bool
  rtpTs  : Nat
  len    : Nat
deriving Repr, DecidableEq

/-- Outcome of one `send_af` call: the updated RTP state, the packet given
to `sendh` (if it was invoked) and the returned error code. -/
structure SendAfOut where
  st   : RtpState
  sent : Option SentPacket
  ret  : Nat
deriving Repr, DecidableEq

/-- Shallow embedding of `send_af` (source.c:109-156).  `enc` holds what
`ac->ench` produced on this call; `sendErr` is the value `sendh` returns
if it gets invoked; `sampc0` is `af->sampc` on entry.  Control flow mirrors
the C: a return code of the shape `0x0001xxxx` is the partial-consume
outcome (`ts_delta := err & 0xffff`, `af->sampc := 0`); any other nonzero
code jumps to `out`; the staged region of `rtp_mb` spans `ext_len + len`
bytes, and the block guarded by `mbuf_get_left` (which contains both the
send and the `ts_delta` advance) runs only when that region is nonempty;
`rtp_marker` is cleared unconditionally at `out`. -/
def sendAf (ac : Aucodec) (st : RtpState) (sampc0 : Nat) (enc : EncResult)
    (sendErr : Nat) : SendAfOut :=
  let extLen : Nat := 0
  let len := enc.len
  let tsDelta : Nat :=
    if enc.err &&& 0xffff0000 = 0x00010000 then enc.err &&& 0xffff else 0
  let sampc : Nat :=
    if enc.err &&& 0xffff0000 = 0x00010000 then 0 else sampc0
  if ¬ enc.err &&& 0xffff0000 = 0x00010000 ∧ enc.err ≠ 0 then
    { st := ⟨st.tsExt, false⟩, sent := Option.none, ret := enc.err }
  else if 0 < extLen + len then
    let pkt : Option SentPacket :=
      if len ≠ 0 then Option.some ⟨extLen, enc.marker, st.tsExt % U32, len⟩
      else Option.none
    if len ≠ 0 ∧ sendErr ≠ 0 then
      { st := ⟨st.tsExt, false⟩, sent := pkt, ret := sendErr }
    else if tsDelta ≠ 0 then
      { st := ⟨(st.tsExt + tsDelta) % U32, false⟩, sent := pkt,
        ret := if len ≠ 0 then sendErr else enc.err }
    else
      { st := ⟨(st.tsExt + sampc * ac.crate / ac.srate / ac.ch) % U32, false⟩,
        sent := pkt, ret := if len ≠ 0 then sendErr else enc.err }
  else
    { st := ⟨(st.tsExt + sampc * ac.crate / ac.srate / ac.ch) % U32, false⟩,
      sent := Option.none, ret := enc.err }

/-- Timestamp advance of one `send_af` iteration as the amended claim C1
states it.  This definition follows the amended claim's words and exists
for comparison with `sendAf`: the advance is the codec-clock sample count
of the frame on a successful encode, the codec-supplied delta on a
partial-consume outcome only when payload bytes were staged (in which case
a packet is also sent), and zero on a partial-consume outcome with no
staged bytes, on an encode failure, and on a send failure. -/
def tsAdvanceSpec (ac : Aucodec) (sampc0 : Nat) (enc : EncResult)
    (sendErr : Nat) : Nat :=
  if enc.err &&& 0xffff0000 = 0x00010000 then
    if enc.len ≠ 0 ∧ sendErr = 0 then enc.err &&& 0xffff else 0
  else if enc.err ≠ 0 then 0
  else if enc.len ≠ 0 ∧ sendErr ≠ 0 then 0
  else sampc0 * ac.crate / ac.srate / ac.ch

/-- Fold of successive `send_af` iterations: each list entry carries the
frame sample count, the codec outcome and the send-callback outcome of one
iteration.  Returns the final RTP state and the packets handed to
`sendh`, in order. -/
def runIters (ac : Aucodec) : RtpState → List (Nat × EncResult × Nat) →
    RtpState × List SentPacket
  | st, [] => (st, [])
  | st, it :: rest =>
    let out := sendAf ac st it.1 it.2.1 it.2.2
    let next := runIters ac out.st rest
    (next.1, out.sent.toList ++ next.2)

/-- Fields of `struct ausrc_prm` used by `source.c`. -/
structure AusrcPrm where
  fmt   : Aufmt
  srate : Nat
  ch    : Nat
  ptime : Nat
deriving Repr, DecidableEq

/-- Zero-filled `struct ausrc_prm`, the state `mem_zalloc` leaves
`gong_prm` and `mic_prm` in before any setup touches them. -/
def AusrcPrm.zero : AusrcPrm := ⟨0, 0, 0, 0⟩

/-- Fields of rem's `struct auresamp` observed by `source.c`: the
conversion ratio (compared against zero to detect an unconfigured
resampler) and the configured rates and channel counts. -/
structure Resamp where
  ratio : Nat
  irate : Nat
  ich   : Nat
  orate : Nat
  och   : Nat
deriving Repr, DecidableEq

/-- Effect of `auresamp_init` (rem): the whole state is zeroed, in
particular `ratio := 0` marks the resampler unconfigured. -/
def auresampInit : Resamp := ⟨0, 0, 0, 0, 0⟩

/-- Effect of `auresamp_setup` (rem library, external): it validates the
requested conversion and on success stores it, leaving a nonzero `ratio`.
`setupOk` abstracts whether rem accepts the rate/channel combination; only
the zeroness of `ratio` is ever read back by `source.c`, so the success
value `1` stands for any nonzero ratio. -/
def auresampSetup (setupOk : Bool) (rs : Resamp) (irate ich orate och : Nat) :
    Nat × Resamp :=
  if setupOk then (0, ⟨1, irate, ich, orate, och⟩) else (EINVAL, rs)

/-- Observables of the resampler section of one `poll_aubuf_tx` iteration. -/
structure ResampleOut where
  resamp      : Resamp
  setupCalled : Bool
  bypassed    : Bool
  err         : Nat
deriving Repr, DecidableEq

/-- Resampler section of `poll_aubuf_tx` (source.c:186-210): the whole
section is skipped when the frame rate already equals the codec rate;
otherwise `auresamp_setup` is called only when `resamp.ratio == 0`, and
the conversion `auresamp` (outcome abstracted by `convErr`) runs with
whatever configuration the resampler currently holds. -/
def resampleStage (ac : Aucodec) (rs : Resamp) (afSrate afCh : Nat)
    (setupOk : Bool) (convErr : Nat) : ResampleOut :=
  if afSrate = ac.srate then ⟨rs, false, true, 0⟩
  else if rs.ratio = 0 then
    let s := auresampSetup setupOk rs afSrate afCh ac.srate ac.ch
    if s.1 ≠ 0 then ⟨s.2, true, false, s.1⟩
    else ⟨s.2, true, false, convErr⟩
  else ⟨rs, false, false, convErr⟩

/-- Flags and parameters of `struct mcsource` shared between the gong
handlers and the pipeline: `eof`, `mic_muted`, `gong_prm`, `mic_prm`. -/
structure GongState where
  eof      : Bool
  micMuted : Bool
  gongPrm  : AusrcPrm
  micPrm   : AusrcPrm
deriving Repr, DecidableEq

/-- Events that can touch the shared flags after start: the gong error
handler (carrying its error argument), the two read handlers and a
pipeline iteration.  Only `src_gong_err_handler` with `err == 0` writes
`eof` or `mic_muted` (source.c:271-287); the read handlers write only the
audio buffer and `poll_aubuf_tx` writes only the resampler, the RTP state
and the scratch buffers. -/
inductive McEvent
  | gongErr (err : Nat)
  | gongRead
  | micRead
  | pollTx
deriving Repr, DecidableEq

/-- Transition of the shared flags under one event (see `McEvent`). -/
def gongStep (st : GongState) : McEvent → GongState
  | McEvent.gongErr e =>
    if e = 0 then { st with eof := true, micMuted := false } else st
  | McEvent.gongRead => st
  | McEvent.micRead => st
  | McEvent.pollTx => st

/-- Iterated `gongStep` over an event list. -/
def gongSteps (st : GongState) (es : List McEvent) : GongState :=
  es.foldl gongStep st

/-- Trace of the values the `eof` flag takes along an event sequence
(initial value included). -/
def eofTrace (st : GongState) : List McEvent → List Bool
  | [] => [st.eof]
  | e :: rest => st.eof :: eofTrace (gongStep st e) rest

/-- Number of false-to-true changes in a boolean trace. -/
def ascents : List Bool → Nat
  | false :: true :: rest => 1 + ascents (true :: rest)
  | _ :: rest => ascents rest
  | [] => 0

/-- Number of true-to-false changes in a boolean trace. -/
def descents : List Bool → Nat
  | true :: false :: rest => 1 + descents (false :: rest)
  | _ :: rest => descents rest
  | [] => 0

/-- Frame sizing at the top of `poll_aubuf_tx` (source.c:173-183): the
requested sample count, rate and channel count of the frame handed to
`aubuf_read_auframe`, taken from `gong_prm` while `eof` is false and from
`mic_prm` afterwards. -/
def pollFrameParams (st : GongState) : Nat × Nat × Nat :=
  if st.eof = false then
    ((st.gongPrm.srate * st.gongPrm.ch * PTIME) / 1000,
     st.gongPrm.srate, st.gongPrm.ch)
  else
    ((st.micPrm.srate * st.micPrm.ch * PTIME) / 1000,
     st.micPrm.srate, st.micPrm.ch)

/-- Transmit mode (`cfg->txmode`): `AUDIO_MODE_POLL`, `AUDIO_MODE_THREAD`
or any other configured value. -/
inductive Txmode
  | poll
  | thread
  | other (code : Nat)
deriving Repr, DecidableEq

/-- Fields of `struct config_audio` read by `source.c`. -/
structure AudioCfg where
  txmode      : Txmode
  srcFmt      : Aufmt
  srateSrc    : Nat
  channelsSrc : Nat
deriving Repr, DecidableEq

/-- Capture parameters as `setup_ausrc_mic` derives them from the
configuration (source.c:452-456): zero-valued rate and channel settings
fall back to 16000 Hz and 2 channels. -/
def micPrmOf (cfg : AudioCfg) : AusrcPrm :=
  ⟨cfg.srcFmt,
   if cfg.srateSrc = 0 then 16000 else cfg.srateSrc,
   if cfg.channelsSrc = 0 then 2 else cfg.channelsSrc,
   PTIME⟩

/-- One registered audio filter as `setup_aufilt` sees it: an identifier,
whether it provides an encode-update callback, and the error that callback
returns when invoked. -/
structure FiltSpec where
  fid       : Nat
  hasEncUpd : Bool
  updErr    : Nat
deriving Repr, DecidableEq

/-- Chain construction of `setup_aufilt` (source.c:520-555): the global
filter list is walked in order; a filter without an encode-update callback
is skipped, a filter whose callback fails is skipped with a warning, and
every other filter is appended to `filtl`. -/
def setupAufilt : List FiltSpec → List Nat
  | [] => []
  | f :: rest =>
    if f.hasEncUpd then
      if f.updErr = 0 then f.fid :: setupAufilt rest else setupAufilt rest
    else setupAufilt rest

/-- Outcomes of all external calls `mcsource_start` makes, plus the
configuration values it reads.  Each field abstracts one collaborator:
allocation successes, configuration entries, module lookups, driver
allocation results, the filter list and the random base timestamp. -/
structure StartEnv where
  cfg          : AudioCfg
  mtxOk        : Bool
  hasEncUpd    : Bool
  encUpdErr    : Nat
  gongFile     : Bool
  strDupOk     : Bool
  fileAusrcSet : Bool
  fileSrateOpt : Option Nat
  plDupOk      : Bool
  gongModFound : Bool
  gongAllocErr : Nat
  micModFound  : Bool
  micAllocErr  : Nat
  aubufErr     : Nat
  sampvOk      : Bool
  sampvRsOk    : Bool
  mbufOk       : Bool
  filts        : List FiltSpec
  thrCreateErr : Nat
  rand         : Nat
deriving Repr, DecidableEq

/-- Embedding of `setup_ausrc_gong` (source.c:392-434).  The gong
parameters come from the configuration store only: `file_srate` (default
16000) and a fixed channel count of 1; the announcement file is never
probed for its native format and no rate check against the codec occurs.
Returns the error code and the parameter block written to `gong_prm`
(written before any failure point of the `file_ausrc` branch). -/
def setupAusrcGong (env : StartEnv) : Nat × AusrcPrm :=
  if env.fileAusrcSet then
    let prm : AusrcPrm := ⟨AUFMT_S16LE, env.fileSrateOpt.getD 16000, 1, PTIME⟩
    if env.plDupOk then
      if env.gongModFound then (env.gongAllocErr, prm)
      else (ENOTSUP, prm)
    else (ENOMEM, prm)
  else (EINVAL, AusrcPrm.zero)

/-- Resource fields of `struct mcsource` that teardown releases. -/
structure Resources where
  enc      : Bool
  gongName : Bool
  gongSt   : Bool
  micSt    : Bool
  aubuf    : Bool
  sampv    : Bool
  sampvRs  : Bool
  rtpMb    : Bool
  filtl    : Bool
  thread   : Bool
deriving Repr, DecidableEq

/-- Resource set with nothing acquired. -/
def Resources.empty : Resources :=
  ⟨false, false, false, false, false, false, false, false, false, false⟩

/-- Embedding of `mcsource_destructor` (source.c:69-98) applied to the set
of currently live resources.  Its first statement is
`switch (src->cfg->txmode)`, so running it while `src->cfg` is still the
null pointer left by `mem_zalloc` (the case when `mtx_init` failed, before
`cfg` is assigned) dereferences null: that is the `Option.none` outcome.
Otherwise it joins a running thread and then releases every field, leaving
nothing live. -/
def mcsourceDestructor (cfgSet : Bool) (live : Resources) : Option Resources :=
  if cfgSet then Option.some Resources.empty else Option.none

/-- State of `struct mcsource` after a successful `mcsource_start`,
restricted to the fields the claims observe. -/
structure McState where
  txmode : Txmode
  ac     : Aucodec
  flags  : GongState
  resamp : Resamp
  rtp    : RtpState
  tsBase : Nat
  filtl  : List Nat
  run    : Bool
deriving Repr, DecidableEq

/-- Result of `mcsource_start`: a crash inside the teardown, a synchronous
error return `fail e leaked` (the output pointer `*srcp` is not written on
this path and `leaked` lists what the destructor left unreleased), or a
successful return with the fully initialized source state. -/
inductive StartResult
  | crash
  | fail (err : Nat) (leaked : Resources)
  | ok (st : McState)
deriving Repr, DecidableEq

/-- Failure exit of `mcsource_start` (the `out:` label with `err` nonzero,
source.c:693-699): `mem_deref(mc_src)` drops the last reference and runs
the destructor on the live resources. -/
def unwind (cfgSet : Bool) (e : Nat) (live : Resources) : StartResult :=
  match mcsourceDestructor cfgSet live with
  | Option.none => StartResult.crash
  | Option.some rest => StartResult.fail e rest

/-- Source state produced by a fully successful `mcsource_start`
(source.c:608-700): `eof` false, `mic_muted` true only when a gong file
was configured, `gong_prm` as `setup_ausrc_gong` left it (zero-filled when
no gong file was given), `mic_prm` from the configuration,
`ts_ext = ts_base = rand_u32()`, `rtp_marker` still false (zero-filled by
`mem_zalloc`; no statement of `mcsource_start` assigns it), the filter
chain from `setup_aufilt`, and the thread run flag set only in thread
mode. -/
def startedState (env : StartEnv) (ac : Aucodec) : McState :=
  { txmode := env.cfg.txmode
    ac := ac
    flags :=
      { eof := false
        micMuted := env.gongFile
        gongPrm := if env.gongFile then (setupAusrcGong env).2 else AusrcPrm.zero
        micPrm := micPrmOf env.cfg }
    resamp := auresampInit
    rtp := { tsExt := env.rand % U32, marker := false }
    tsBase := env.rand % U32
    filtl := setupAufilt env.filts
    run := match env.cfg.txmode with | Txmode.thread => true | _ => false }

/-- Embedding of `setup_aucodec` (source.c:366-381): when the codec has an
encoder-state update callback it is invoked and its error returned,
otherwise the step succeeds with the codec merely bound. -/
def setupAucodecErr (env : StartEnv) : Nat :=
  if env.hasEncUpd then env.encUpdErr else 0

/-- Embedding of `mcsource_start` (source.c:608-700) over the external
outcomes in `env`.  Every step is fatal on failure and jumps to `out:`,
which runs the destructor; the numbered steps mirror the C order: mutex,
codec setup, optional gong-file setup (flags, filename copy, file source),
capture source, buffers, RTP fields, resampler, filter chain, transmit
startup.  The resource set handed to `unwind` at each point is what has
been acquired so far. -/
def mcsourceStart (env : StartEnv) (ac : Aucodec) : StartResult :=
  if env.mtxOk = false then
    unwind false ENOMEM Resources.empty
  else if ¬ setupAucodecErr env = 0 then
    unwind true (setupAucodecErr env) Resources.empty
  else if env.gongFile ∧ env.strDupOk = false then
    unwind true ENOMEM { Resources.empty with enc := env.hasEncUpd }
  else if env.gongFile ∧ (setupAusrcGong env).1 ≠ 0 then
    unwind true (setupAusrcGong env).1
      { Resources.empty with
        enc := env.hasEncUpd
        gongName := true }
  else if env.micModFound = false then
    unwind true EINVAL
      { Resources.empty with
        enc := env.hasEncUpd
        gongName := env.gongFile
        gongSt := env.gongFile }
  else if env.micAllocErr ≠ 0 then
    unwind true env.micAllocErr
      { Resources.empty with
        enc := env.hasEncUpd
        gongName := env.gongFile
        gongSt := env.gongFile }
  else if env.aubufErr ≠ 0 then
    unwind true env.aubufErr
      { Resources.empty with
        enc := env.hasEncUpd
        gongName := env.gongFile
        gongSt := env.gongFile
        micSt := true }
  else if env.sampvOk = false ∨ env.sampvRsOk = false then
    unwind true ENOMEM
      { Resources.empty with
        enc := env.hasEncUpd
        gongName := env.gongFile
        gongSt := env.gongFile
        micSt := true
        aubuf := true
        sampv := env.sampvOk
        sampvRs := env.sampvRsOk }
  else if env.mbufOk = false then
    unwind true ENOMEM
      { Resources.empty with
        enc := env.hasEncUpd
        gongName := env.gongFile
        gongSt := env.gongFile
        micSt := true
        aubuf := true
        sampv := true
        sampvRs := true }
  else
    match env.cfg.txmode with
    | Txmode.poll => StartResult.ok (startedState env ac)
    | Txmode.thread =>
      if env.thrCreateErr ≠ 0 then
        unwind true env.thrCreateErr
          { Resources.empty with
            enc := env.hasEncUpd
            gongName := env.gongFile
            gongSt := env.gongFile
            micSt := true
            aubuf := true
            sampv := true
            sampvRs := true
            rtpMb := true
            filtl := true }
      else StartResult.ok (startedState env ac)
    | Txmode.other _ =>
      unwind true ENOTSUP
        { Resources.empty with
          enc := env.hasEncUpd
          gongName := env.gongFile
          gongSt := env.gongFile
          micSt := true
          aubuf := true
          sampv := true
          sampvRs := true
          rtpMb := true
          filtl := true }

/-- Projection observing the source state of a successful start. -/
def StartResult.stateOf : StartResult → Option McState
  | StartResult.ok st => Option.some st
  | _ => Option.none

/-- Catch-up loop shared by the two read handlers (source.c:253-259 and
311-317): up to 16 rounds, each gated by
`aubuf_cur_size(src->aubuf) < package_size` breaking out.  `drain`
abstracts the effect one `poll_aubuf_tx` call has on `aubuf_cur_size`
(external buffer behavior).  Returns the list of buffer sizes at which
`poll_aubuf_tx` actually ran. -/
def pollLoop (packageSize : Nat) (drain : Nat → Nat) : Nat → Nat → List Nat
  | 0, _ => []
  | fuel + 1, cur =>
    if cur < packageSize then []
    else cur :: pollLoop packageSize drain fuel (drain cur)

/-- Embedding of `src_mic_read_handler` (source.c:239-261): return at once
while muted; otherwise write the frame to the buffer (external) and, in
poll mode only, run the 16-round catch-up loop with
`package_size = (ac->srate * ac->ch * PTIME / 1000) *
aufmt_sample_size(mic_prm.fmt)`.  `sampSize` is `aufmt_sample_size`
(external table) and `cur0` the buffer size after the incoming frame was
written.  Returns the gate sizes at which `poll_aubuf_tx` ran. -/
def srcMicReadHandler (st : McState) (sampSize : Aufmt → Nat) (cur0 : Nat)
    (drain : Nat → Nat) : List Nat :=
  if st.flags.micMuted then []
  else if st.txmode = Txmode.poll then
    pollLoop (st.ac.srate * st.ac.ch * PTIME / 1000 * sampSize st.flags.micPrm.fmt)
      drain 16 cur0
  else []

/-- Embedding of `src_gong_read_handler` (source.c:296-318): return at
once after `eof`; otherwise like the capture handler, with
`package_size` computed from `gong_prm.fmt`. -/
def srcGongReadHandler (st : McState) (sampSize : Aufmt → Nat) (cur0 : Nat)
    (drain : Nat → Nat) : List Nat :=
  if st.flags.eof then []
  else if st.txmode = Txmode.poll then
    pollLoop (st.ac.srate * st.ac.ch * PTIME / 1000 * sampSize st.flags.gongPrm.fmt)
      drain 16 cur0
  else []

/-- Program points of the `tx_thread` loop (source.c:335-352) at which the
run flag is read: the `while` condition, and the recheck right after
`sys_msleep(4)`. -/
inductive ThrPc
  | check
  | slept
deriving Repr, DecidableEq

/-- Observable events of the scheduling thread: completion of one sleep
quantum, and one pass of the loop body reaching its work section (the
jiffies bookkeeping and, buffer permitting, `poll_aubuf_tx`). -/
inductive ThrEvent
  | sleepEnd
  | iterate
deriving Repr, DecidableEq

/-- Event trace of `tx_thread` (source.c:328-355).  `flag r` is the value
the r-th atomic read of `thr.run` returns (reads are numbered in program
order, so a concurrent `false` store is visible from some read index on);
`act r` abstracts the virtual-clock and buffer-level tests deciding
whether the pass reaches `poll_aubuf_tx`.  At `check` a true read sleeps
one quantum and moves to the post-sleep recheck; a false read exits the
loop.  At `slept` a false read breaks out before any work; a true read
runs the pass and returns to `check`.  `fuel` bounds the unrolling. -/
def txThread (flag : Nat → Bool) (act : Nat → Bool) :
    Nat → ThrPc → Nat → List ThrEvent
  | 0, _, _ => []
  | fuel + 1, ThrPc.check, r =>
    if flag r then ThrEvent.sleepEnd :: txThread flag act fuel ThrPc.slept (r + 1)
    else []
  | fuel + 1, ThrPc.slept, r =>
    if flag r then
      if act r then ThrEvent.iterate :: txThread flag act fuel ThrPc.check (r + 1)
      else txThread flag act fuel ThrPc.check (r + 1)
    else []

/-- Values the `thr.run` flag takes over a thread-mode source lifetime, in
program order of its writers: zero-filled false, set true by
`start_transmitte` (source.c:576), set back false there if
`thread_create_name` fails (source.c:580), and set false once by the
destructor before joining (source.c:75-77). -/
def runFlagHistory (thrCreateOk : Bool) (destroyed : Bool) : List Bool :=
  [false, true] ++ (if thrCreateOk then [] else [false]) ++
    (if destroyed then [false] else [])

/-- Sample data handed to the encoder by one pipeline iteration
(source.c:167-213): the frame read from the buffer (contents external),
passed through the resampler conversion (external function `convert`) when
the frame rate differs from the codec rate.  The filter chain `filtl`
built by `setup_aufilt` is a parameter here to document that no statement
between `aubuf_read_auframe` and `send_af` walks it: the definition does
not consult it. -/
def encoderInput (ac : Aucodec) (afSrate : Nat) (frame : List Int)
    (convert : List Int → List Int) (filtl : List (List Int → List Int)) :
    List Int :=
  if afSrate = ac.srate then frame else convert frame

/-- Sample data the encoder would receive per the claim C3 wording: the
filter chain applied in registration order to the frame after resampling
and before encoding.  This definition follows the claim's words and exists
for comparison with `encoderInput`. -/
def encoderInputSpec (ac : Aucodec) (afSrate : Nat) (frame : List Int)
    (convert : List Int → List Int) (filtl : List (List Int → List Int)) :
    List Int :=
  filtl.foldl (fun acc g => g acc) (if afSrate = ac.srate then frame else convert frame)

/-- Audio configuration used by the concrete checks: poll mode, S16LE
capture format, 16 kHz stereo capture. -/
def cfgPoll : AudioCfg := ⟨Txmode.poll, AUFMT_S16LE, 16000, 2⟩

/-- Start environment in which every external step succeeds and no
announcement file is given. -/
def envNoGong : StartEnv :=
  { cfg := cfgPoll
    mtxOk := true
    hasEncUpd := false
    encUpdErr := 0
    gongFile := false
    strDupOk := true
    fileAusrcSet := false
    fileSrateOpt := Option.none
    plDupOk := true
    gongModFound := true
    gongAllocErr := 0
    micModFound := true
    micAllocErr := 0
    aubufErr := 0
    sampvOk := true
    sampvRsOk := true
    mbufOk := true
    filts := []
    thrCreateErr := 0
    rand := 100 }

/-- Start environment with an announcement file whose configured sample
rate is 44100 Hz, every external step succeeding. -/
def envGong44100 : StartEnv :=
  { envNoGong with
    gongFile := true
    fileAusrcSet := true
    fileSrateOpt := Option.some 44100 }

/-- Start environment in which `mtx_init` fails. -/
def envMtxFail : StartEnv := { envNoGong with mtxOk := false }

/-- Narrowband codec binding (8 kHz working and clock rate, mono). -/
def acNb : Aucodec := ⟨8000, 8000, 1⟩

/-- Wideband codec binding (16 kHz working and clock rate, mono). -/
def acWb : Aucodec := ⟨16000, 16000, 1⟩

/-- Concrete shared-flag state used by the witnesses: announcement still
playing (`eof` false, capture muted), capture configured at 16 kHz
stereo. -/
def gsW : GongState := ⟨false, true, ⟨0, 16000, 1, PTIME⟩, ⟨0, 16000, 2, PTIME⟩⟩

/-- Concrete `aufmt_sample_size` table used by the witnesses: two bytes
per sample for every format. -/
def sampSz2 : Aufmt → Nat := fun _ => 2

/-- Concrete buffer-drain model used by the witnesses: one
`poll_aubuf_tx` call removes 640 bytes. -/
def drain640 : Nat → Nat := fun c => c - 640

theorem sendAf_tsExt (ac : Aucodec) (st : RtpState) (sampc0 : Nat)
    (enc : EncResult) (sendErr : Nat) (h : st.tsExt < U32) :
    (sendAf ac st sampc0 enc sendErr).st.tsExt
      = (st.tsExt + tsAdvanceSpec ac sampc0 enc sendErr) % U32 := by
  simp only [sendAf, tsAdvanceSpec]
  split_ifs <;> simp_all [Nat.mod_eq_of_lt h]

theorem sendAf_marker (ac : Aucodec) (st : RtpState) (sampc0 : Nat)
    (enc : EncResult) (sendErr : Nat) :
    (sendAf ac st sampc0 enc sendErr).st.marker = false := by
  simp only [sendAf]
  split_ifs <;> rfl

theorem sendAf_sent_marker (ac : Aucodec) (st : RtpState) (sampc0 : Nat)
    (enc : EncResult) (sendErr : Nat) (p : SentPacket)
    (hp : (sendAf ac st sampc0 enc sendErr).sent = Option.some p) :
    p.marker = enc.marker := by
  simp only [sendAf] at hp
  split_ifs at hp <;> simp_all <;> simp [← hp]

theorem runIters_marker (ac : Aucodec) (iters : List (Nat × EncResult × Nat))
    (st : RtpState) (hcodec : ∀ it ∈ iters, (Prod.fst (Prod.snd it)).marker = false) :
    ∀ pkt ∈ (runIters ac st iters).2, pkt.marker = false := by
  induction iters generalizing st with
  | nil => intro pkt hm; simp [runIters] at hm
  | cons it rest ih =>
    intro pkt hm
    simp only [runIters, List.mem_append] at hm
    rcases hm with hm | hm
    · rcases ho : (sendAf ac st it.1 it.2.1 it.2.2).sent with _ | p
      · simp [ho] at hm
      · simp [ho] at hm
        rw [hm, sendAf_sent_marker ac st it.1 it.2.1 it.2.2 p ho]
        exact hcodec it (List.mem_cons_self it rest)
    · exact ih _ (fun j hj => hcodec j (List.mem_cons_of_mem it hj)) pkt hm

set_option maxHeartbeats 1000000 in
theorem mcsourceStart_ok {env : StartEnv} {ac : Aucodec} {st : McState}
    (h : mcsourceStart env ac = StartResult.ok st) :
    st = startedState env ac := by
  unfold mcsourceStart at h
  split_ifs at h <;>
    (cases htx : env.cfg.txmode <;>
      simp [htx, unwind, mcsourceDestructor] at h <;> exact h.symm)

/-- Counterexample to claim C1 as stated.  On a partial-consume outcome
with no payload produced (`ench` returns `0x00010005`, delta 5, and leaves
`len = 0`), no packet is sent — but the extended timestamp does not
advance by the codec-supplied delta either: the staged region is empty, so
the `mbuf_get_left` guard skips the whole block containing the
`ts_delta` advance, and the timestamp stays at 100 instead of moving to
105 as the claim requires. -/
theorem C1_counterexample :
    ((65541 : Nat) &&& 0xffff0000 = 0x00010000) ∧
    ((65541 : Nat) &&& 0xffff = 5) ∧
    (sendAf acNb ⟨100, false⟩ 160 ⟨65541, 0, false⟩ 0).sent = Option.none ∧
    (sendAf acNb ⟨100, false⟩ 160 ⟨65541, 0, false⟩ 0).st.tsExt = 100 ∧
    ¬ (sendAf acNb ⟨100, false⟩ 160 ⟨65541, 0, false⟩ 0).st.tsExt = 100 + 5 := by
  decide

/-- Claim C1, amended: per pipeline iteration the extended timestamp
advances, modulo the 32-bit width of `ts_ext`, by exactly
`tsAdvanceSpec`: the codec-clock sample count of the frame
(`sampc * crate / srate / ch`) on a successful encode, the codec-supplied
delta on a partial-consume outcome only when payload bytes were staged
(in which case a packet is also sent), and zero on a partial-consume
outcome with no staged payload, on an encode failure, and on a send
failure.  Absent 32-bit wraparound the counter is therefore
non-decreasing. -/
theorem C1_theorem (ac : Aucodec) (st : RtpState) (sampc0 : Nat)
    (enc : EncResult) (sendErr : Nat) (h : st.tsExt < U32) :
    (sendAf ac st sampc0 enc sendErr).st.tsExt
      = (st.tsExt + tsAdvanceSpec ac sampc0 enc sendErr) % U32 ∧
    (st.tsExt + tsAdvanceSpec ac sampc0 enc sendErr < U32 →
      st.tsExt ≤ (sendAf ac st sampc0 enc sendErr).st.tsExt) := by
  refine ⟨sendAf_tsExt ac st sampc0 enc sendErr h, fun hlt => ?_⟩
  rw [sendAf_tsExt ac st sampc0 enc sendErr h, Nat.mod_eq_of_lt hlt]
  exact Nat.le_add_right _ _

/-- Witness for `C1_theorem` at a successful 20 ms narrowband iteration. -/
theorem C1_witness :
    (100 : Nat) < U32 ∧
    (sendAf acNb ⟨100, false⟩ 160 ⟨0, 33, false⟩ 0).st.tsExt
      = (100 + tsAdvanceSpec acNb 160 ⟨0, 33, false⟩ 0) % U32 := by
  exact ⟨by decide, (C1_theorem acNb ⟨100, false⟩ 160 ⟨0, 33, false⟩ 0 (by decide)).1⟩

/-- Counterexample to claim C2 as stated.  `mcsource_start` never assigns
`rtp_marker`; the zero-filled allocation leaves it false, so after a fully
successful start (environment `envNoGong`) the marker is false, and the
first packet ever sent — produced by a successful encode in which the
codec leaves the marker pointer untouched — carries marker false, not
true. -/
theorem C2_counterexample :
    (StartResult.stateOf (mcsourceStart envNoGong acWb)).map
        (fun st => st.rtp.marker) = Option.some false ∧
    (sendAf acWb ⟨100, false⟩ 320 ⟨0, 50, false⟩ 0).sent
      = Option.some ⟨0, false, 100, 50⟩ := by
  decide

/-- Claim C2, amended: the marker flag is never true on any sent packet.
Start leaves it false (the struct is zero-allocated and no statement of
`mcsource_start` sets it), `send_af` clears it unconditionally at the end
of every iteration, and hence — whenever the codec's encode callback does
not itself raise the flag it receives a pointer to — every packet handed
to the send callback over any sequence of iterations following a
successful start carries marker false. -/
theorem C2_theorem (env : StartEnv) (ac : Aucodec) (st0 : McState)
    (iters : List (Nat × EncResult × Nat))
    (hok : mcsourceStart env ac = StartResult.ok st0)
    (hcodec : ∀ it ∈ iters, (Prod.fst (Prod.snd it)).marker = false) :
    st0.rtp.marker = false ∧
    ∀ pkt ∈ (runIters ac st0.rtp iters).2, pkt.marker = false := by
  constructor
  · rw [mcsourceStart_ok hok]
    rfl
  · exact runIters_marker ac iters st0.rtp hcodec

/-- Witness for `C2_theorem`: the started state of `envNoGong` and two
iterations (one successful encode, one partial-consume outcome). -/
theorem C2_witness :
    mcsourceStart envNoGong acWb = StartResult.ok (startedState envNoGong acWb) ∧
    (startedState envNoGong acWb).rtp.marker = false ∧
    ∀ pkt ∈ (runIters acWb (startedState envNoGong acWb).rtp
        [(320, ⟨0, 50, false⟩, 0), (320, ⟨65541, 0, false⟩, 0)]).2,
      pkt.marker = false := by
  refine ⟨by decide, ?_⟩
  have h := C2_theorem envNoGong acWb (startedState envNoGong acWb)
    [(320, ⟨0, 50, false⟩, 0), (320, ⟨65541, 0, false⟩, 0)]
    (by decide) (by decide)
  exact h

/-- Counterexample to claim C3 as stated.  With a one-element filter chain
whose transform adds one to every sample, the data handed to the encoder
by a pipeline iteration is the unfiltered frame `[1, 2]`, not the filtered
`[2, 3]` the claim requires: no statement between `aubuf_read_auframe` and
`send_af` walks `filtl`. -/
theorem C3_counterexample :
    encoderInput acWb 16000 [1, 2] id [List.map (fun s => s + 1)] = [1, 2] ∧
    encoderInputSpec acWb 16000 [1, 2] id [List.map (fun s => s + 1)] = [2, 3] ∧
    ¬ encoderInput acWb 16000 [1, 2] id [List.map (fun s => s + 1)]
        = encoderInputSpec acWb 16000 [1, 2] id [List.map (fun s => s + 1)] := by
  decide

/-- Claim C3, amended: `setup_aufilt` builds the encode-side filter chain
at startup in registration order (filters lacking an encode callback or
failing to initialize are skipped), but pipeline iterations never apply
it: the data handed to the encoder is independent of the chain, equal to
the frame as read (resampled when the frame rate differs from the codec
rate). -/
theorem C3_theorem (filts : List FiltSpec) (ac : Aucodec) (afSrate : Nat)
    (frame : List Int) (convert : List Int → List Int)
    (chain : List (List Int → List Int)) :
    setupAufilt filts
      = (filts.filter fun f => f.hasEncUpd && f.updErr == 0).map FiltSpec.fid ∧
    encoderInput ac afSrate frame convert chain
      = encoderInput ac afSrate frame convert [] := by
  constructor
  · induction filts with
    | nil => rfl
    | cons f rest ih =>
      by_cases h1 : f.hasEncUpd <;> by_cases h2 : f.updErr = 0 <;>
        simp [setupAufilt, h1, h2, List.filter_cons, beq_iff_eq, ih]
  · rfl

theorem gongStep_eof_mono (st : GongState) (e : McEvent) (h : st.eof = true) :
    (gongStep st e).eof = true := by
  cases e with
  | gongErr k => by_cases hk : k = 0 <;> simp [gongStep, hk, h]
  | gongRead => exact h
  | micRead => exact h
  | pollTx => exact h

theorem gongStep_micPrm (st : GongState) (e : McEvent) :
    (gongStep st e).micPrm = st.micPrm := by
  cases e with
  | gongErr k => by_cases hk : k = 0 <;> simp [gongStep, hk]
  | gongRead => rfl
  | micRead => rfl
  | pollTx => rfl

theorem gongSteps_eof_mono (es : List McEvent) : ∀ st : GongState,
    st.eof = true → (gongSteps st es).eof = true := by
  induction es with
  | nil => intro st h; exact h
  | cons e rest ih =>
    intro st h
    simp only [gongSteps, List.foldl_cons] at *
    exact ih (gongStep st e) (gongStep_eof_mono st e h)

theorem gongSteps_micPrm (es : List McEvent) : ∀ st : GongState,
    (gongSteps st es).micPrm = st.micPrm := by
  induction es with
  | nil => intro st; rfl
  | cons e rest ih =>
    intro st
    simp only [gongSteps, List.foldl_cons] at *
    rw [ih (gongStep st e), gongStep_micPrm st e]

theorem eofTrace_shape (st : GongState) (es : List McEvent) :
    ∃ r, eofTrace st es = st.eof :: r := by
  cases es <;> exact ⟨_, rfl⟩

theorem ascents_cons_true (l : List Bool) : ascents (true :: l) = ascents l := by
  cases l with
  | nil => rfl
  | cons b rest => cases b <;> rfl

theorem eofTrace_all_true (es : List McEvent) : ∀ st : GongState,
    st.eof = true → ascents (eofTrace st es) = 0 := by
  induction es with
  | nil => intro st h; simp [eofTrace, h, ascents_cons_true, ascents]
  | cons e rest ih =>
    intro st h
    simp only [eofTrace, h, ascents_cons_true]
    exact ih (gongStep st e) (gongStep_eof_mono st e h)

theorem ascents_eofTrace_one (es : List McEvent) : ∀ (st : GongState)
    (es' : List McEvent), st.eof = false →
    ascents (eofTrace st (es ++ McEvent.gongErr 0 :: es')) = 1 := by
  induction es with
  | nil =>
    intro st es' h
    have h1 : (gongStep st (McEvent.gongErr 0)).eof = true := by simp [gongStep]
    rcases eofTrace_shape (gongStep st (McEvent.gongErr 0)) es' with ⟨r, hr⟩
    have h0 : ascents (eofTrace (gongStep st (McEvent.gongErr 0)) es') = 0 :=
      eofTrace_all_true es' _ h1
    simp only [List.nil_append, eofTrace, h, hr, h1] at *
    show ascents (false :: true :: r) = 1
    have : ascents (false :: true :: r) = 1 + ascents (true :: r) := rfl
    rw [this, h0]
  | cons e rest ih =>
    intro st es' h
    show ascents (st.eof :: eofTrace (gongStep st e)
      (rest ++ McEvent.gongErr 0 :: es')) = 1
    rcases eofTrace_shape (gongStep st e) (rest ++ McEvent.gongErr 0 :: es')
      with ⟨r, hr⟩
    rw [h, hr]
    by_cases h' : (gongStep st e).eof = true
    · have h0 : ascents (eofTrace (gongStep st e)
          (rest ++ McEvent.gongErr 0 :: es')) = 0 := eofTrace_all_true _ _ h'
      rw [hr, h'] at h0
      rw [h']
      show 1 + ascents (true :: r) = 1
      rw [h0]
    · have hf : (gongStep st e).eof = false := Bool.eq_false_iff.mpr h'
      have h0 := ih (gongStep st e) es' hf
      rw [hr, hf] at h0
      rw [hf]
      show ascents (false :: r) = 1
      exact h0

/-- Claim C4: after the announcement source reports EOF
(`src_gong_err_handler` with error 0), the `eof` flag becomes true, the
false-to-true transition happens exactly once along any event sequence (it
never reverts), and every later pipeline iteration sizes its frame from
the live capture parameters `mic_prm`, which no post-start event
modifies. -/
theorem C4_theorem (st : GongState) (es es' : List McEvent)
    (h : st.eof = false) :
    (gongSteps st (es ++ McEvent.gongErr 0 :: es')).eof = true ∧
    ascents (eofTrace st (es ++ McEvent.gongErr 0 :: es')) = 1 ∧
    pollFrameParams (gongSteps st (es ++ McEvent.gongErr 0 :: es'))
      = ((st.micPrm.srate * st.micPrm.ch * PTIME) / 1000,
         st.micPrm.srate, st.micPrm.ch) := by
  have hsplit : gongSteps st (es ++ McEvent.gongErr 0 :: es')
      = gongSteps (gongStep (gongSteps st es) (McEvent.gongErr 0)) es' := by
    simp [gongSteps, List.foldl_append]
  have heof : (gongSteps st (es ++ McEvent.gongErr 0 :: es')).eof = true := by
    rw [hsplit]
    exact gongSteps_eof_mono es' _ (by simp [gongStep])
  have hmic : (gongSteps st (es ++ McEvent.gongErr 0 :: es')).micPrm
      = st.micPrm := gongSteps_micPrm _ st
  refine ⟨heof, ascents_eofTrace_one es st es' h, ?_⟩
  simp [pollFrameParams, heof, hmic]

/-- Witness for `C4_theorem`: a gong read, then EOF, then one more
pipeline iteration. -/
theorem C4_witness :
    gsW.eof = false ∧
    ((gongSteps gsW ([McEvent.gongRead] ++ McEvent.gongErr 0 ::
        [McEvent.pollTx])).eof = true ∧
     ascents (eofTrace gsW ([McEvent.gongRead] ++ McEvent.gongErr 0 ::
        [McEvent.pollTx])) = 1 ∧
     pollFrameParams (gongSteps gsW ([McEvent.gongRead] ++ McEvent.gongErr 0 ::
        [McEvent.pollTx]))
       = ((gsW.micPrm.srate * gsW.micPrm.ch * PTIME) / 1000,
          gsW.micPrm.srate, gsW.micPrm.ch)) :=
  ⟨rfl, C4_theorem gsW [McEvent.gongRead] [McEvent.pollTx] rfl⟩

/-- Counterexample to claim C5 as stated.  A resampler already configured
for input pair (8000 Hz, 1 ch) sees a frame with the distinct pair
(48000 Hz, 2 ch), mismatching the codec rate 16000: the claim requires a
reconfiguration for this newly observed pair, but `poll_aubuf_tx` calls
`auresamp_setup` only when `resamp.ratio == 0`, so no setup happens and
the stale configuration is used for the conversion. -/
theorem C5_counterexample :
    (resampleStage acWb ⟨0, 0, 0, 0, 0⟩ 8000 1 true 0).setupCalled = true ∧
    (resampleStage acWb
        (resampleStage acWb ⟨0, 0, 0, 0, 0⟩ 8000 1 true 0).resamp
        48000 2 true 0).setupCalled = false ∧
    (resampleStage acWb ⟨0, 0, 0, 0, 0⟩ 8000 1 true 0).resamp.irate = 8000 ∧
    ¬ (48000, 2) = (8000, 1) := by
  decide

/-- Claim C5, amended: `auresamp_setup` is invoked by a pipeline iteration
exactly when the frame rate differs from the codec rate and the resampler
is unconfigured (`ratio = 0`, its state after `auresamp_init`); once
configured it is not retriggered by any later change of the input
rate/channels until the resampler is reset (the gong-EOF handler runs
`auresamp_init`).  The resample stage is bypassed entirely exactly when
the frame rate equals the codec rate. -/
theorem C5_theorem (ac : Aucodec) (rs : Resamp) (afSrate afCh : Nat)
    (setupOk : Bool) (convErr : Nat) :
    ((resampleStage ac rs afSrate afCh setupOk convErr).setupCalled = true
      ↔ (afSrate ≠ ac.srate ∧ rs.ratio = 0)) ∧
    ((resampleStage ac rs afSrate afCh setupOk convErr).bypassed = true
      ↔ afSrate = ac.srate) ∧
    (resampleStage ac auresampInit afSrate afCh setupOk convErr).setupCalled
      = (if afSrate = ac.srate then false else true) := by
  refine ⟨?_, ?_, ?_⟩ <;>
    (simp only [resampleStage, auresampInit, auresampSetup]
     split_ifs <;> simp_all)

theorem pollLoop_bounded (packageSize : Nat) (drain : Nat → Nat) :
    ∀ (fuel cur : Nat),
      (pollLoop packageSize drain fuel cur).length ≤ fuel ∧
      ∀ s ∈ pollLoop packageSize drain fuel cur, packageSize ≤ s := by
  intro fuel
  induction fuel with
  | zero => intro cur; exact ⟨Nat.le_refl 0, by simp [pollLoop]⟩
  | succ k ih =>
    intro cur
    by_cases h : cur < packageSize
    · simp [pollLoop, h]
    · constructor
      · simp only [pollLoop, if_neg h, List.length_cons]
        exact Nat.succ_le_succ (ih (drain cur)).1
      · intro s hs
        simp only [pollLoop, if_neg h, List.mem_cons] at hs
        rcases hs with hs | hs
        · exact hs ▸ Nat.le_of_not_lt h
        · exact (ih (drain cur)).2 s hs

/-- Claim C6: in poll mode each invocation of the capture or announcement
read handler runs at most 16 pipeline iterations, and every iteration runs
only when the buffer currently holds at least one packet's worth of bytes
(`package_size`); any further backlog is left for later callbacks. -/
theorem C6_theorem (st : McState) (sampSize : Aufmt → Nat) (cur0 : Nat)
    (drain : Nat → Nat) (hmode : st.txmode = Txmode.poll) :
    ((srcMicReadHandler st sampSize cur0 drain).length ≤ 16 ∧
     ∀ s ∈ srcMicReadHandler st sampSize cur0 drain,
       st.ac.srate * st.ac.ch * PTIME / 1000 * sampSize st.flags.micPrm.fmt ≤ s) ∧
    ((srcGongReadHandler st sampSize cur0 drain).length ≤ 16 ∧
     ∀ s ∈ srcGongReadHandler st sampSize cur0 drain,
       st.ac.srate * st.ac.ch * PTIME / 1000 * sampSize st.flags.gongPrm.fmt ≤ s) := by
  constructor
  · by_cases hm : st.flags.micMuted
    · simp [srcMicReadHandler, hm]
    · simp only [srcMicReadHandler, hm, hmode, if_false, if_true, Bool.false_eq_true,
        if_neg, reduceIte]
      exact pollLoop_bounded _ drain 16 cur0
  · by_cases he : st.flags.eof
    · simp [srcGongReadHandler, he]
    · simp only [srcGongReadHandler, he, hmode, Bool.false_eq_true, reduceIte]
      exact pollLoop_bounded _ drain 16 cur0

/-- Witness for `C6_theorem`: the post-start poll-mode state of
`envNoGong`, a 1300-byte backlog, 640 bytes drained per iteration. -/
theorem C6_witness :
    (startedState envNoGong acWb).txmode = Txmode.poll ∧
    (srcMicReadHandler (startedState envNoGong acWb) sampSz2 1300
        drain640).length ≤ 16 := by
  refine ⟨rfl, ?_⟩
  exact ((C6_theorem (startedState envNoGong acWb) sampSz2 1300 drain640 rfl).1).1

/-- Claim C7: over a thread-mode source lifetime the run flag makes at
most one true-to-false transition (its writers are `start_transmitte`, the
thread-creation failure path and the destructor, in program order); and in
any thread execution, from the moment every atomic read of the flag
returns false, both read points of the loop exit immediately — no further
sleep quantum and no further pipeline iteration occur; in particular the
post-sleep recheck exits before running an iteration. -/
theorem C7_theorem (flag act : Nat → Bool) (t : Nat)
    (hoff : ∀ i, t ≤ i → flag i = false) :
    (∀ fuel r, t ≤ r →
        txThread flag act fuel ThrPc.check r = [] ∧
        txThread flag act fuel ThrPc.slept r = []) ∧
    (∀ c d : Bool, descents (runFlagHistory c d) ≤ 1) := by
  constructor
  · intro fuel r hr
    cases fuel with
    | zero => exact ⟨rfl, rfl⟩
    | succ k => exact ⟨by simp [txThread, hoff r hr], by simp [txThread, hoff r hr]⟩
  · intro c d
    cases c <;> cases d <;> decide

/-- Witness for `C7_theorem`: the flag reads false from the start, and a
five-step unrolling of the thread produces no event. -/
theorem C7_witness :
    (∀ i, 0 ≤ i → (fun _ : Nat => false) i = false) ∧
    txThread (fun _ => false) (fun _ => true) 5 ThrPc.check 0 = [] := by
  refine ⟨fun i _ => rfl, ?_⟩
  exact ((C7_theorem (fun _ => false) (fun _ => true) 0 (fun i _ => rfl)).1
    5 0 (Nat.le_refl 0)).1

/-- Counterexample to claim C8 as stated.  With an announcement file
configured at 44100 Hz — neither equal to the 8 kHz working rate nor an
integer multiple or submultiple of it (or of any of the telephony
reference rates dividing it) — `setup_ausrc_gong` succeeds and
`mcsource_start` returns a source handle: the file's native format is
never read and no sample-rate compatibility check exists. -/
theorem C8_counterexample :
    (setupAusrcGong envGong44100).1 = 0 ∧
    (setupAusrcGong envGong44100).2.srate = 44100 ∧
    ¬ (44100 : Nat) = 8000 ∧
    ¬ (44100 : Nat) % 8000 = 0 ∧
    ¬ (8000 : Nat) % 44100 = 0 ∧
    (StartResult.stateOf (mcsourceStart envGong44100 acNb)).isSome = true := by
  decide

/-- Claim C8, amended: when an announcement path is supplied,
`setup_ausrc_gong` takes the file parameters from the configuration store
(`file_srate`, default 16000 Hz, one channel, S16LE) without reading the
file's native format and without any sample-rate compatibility check;
whenever the `file_ausrc` option is set, the option string copy succeeds,
the named source module is found and its allocation succeeds, the setup
succeeds regardless of any relation between the configured rate and the
working rate.  (`start` fails here only with `EINVAL` when the option is
unset, `ENOMEM` on the copy, `ENOTSUP` when the module is missing, or the
driver's own allocation error.) -/
theorem C8_theorem (env : StartEnv) (h1 : env.fileAusrcSet = true)
    (h2 : env.plDupOk = true) (h3 : env.gongModFound = true)
    (h4 : env.gongAllocErr = 0) :
    (setupAusrcGong env).1 = 0 ∧
    (setupAusrcGong env).2
      = ⟨AUFMT_S16LE, env.fileSrateOpt.getD 16000, 1, PTIME⟩ := by
  simp [setupAusrcGong, h1, h2, h3, h4]

/-- Witness for `C8_theorem` at `envGong44100`. -/
theorem C8_witness :
    envGong44100.fileAusrcSet = true ∧ envGong44100.plDupOk = true ∧
    envGong44100.gongModFound = true ∧ envGong44100.gongAllocErr = 0 ∧
    (setupAusrcGong envGong44100).1 = 0 ∧
    (setupAusrcGong envGong44100).2 = ⟨AUFMT_S16LE, 44100, 1, PTIME⟩ := by
  refine ⟨rfl, rfl, rfl, rfl, ?_, ?_⟩
  · exact (C8_theorem envGong44100 rfl rfl rfl rfl).1
  · exact (C8_theorem envGong44100 rfl rfl rfl rfl).2

/-- Counterexample to claim C9 as stated.  When `mtx_init` fails — a
failing setup step — `mcsource_start` jumps to `out:` and `mem_deref`
runs the destructor, whose first statement `switch (src->cfg->txmode)`
dereferences the `cfg` pointer that is still null on this path: the
failing execution crashes instead of returning the error with all
resources released. -/
theorem C9_counterexample :
    mcsourceStart envMtxFail acWb = StartResult.crash := by
  decide

/-- Claim C9, amended: for every failing execution of `mcsource_start` in
which the mutex initialization succeeded, start returns a nonzero error
synchronously, the destructor releases every previously acquired resource
(nothing leaks), and no source handle is produced (`fail` carries no
state, mirroring that `*srcp` is written only on the success path); the
execution never crashes.  When mutex initialization itself fails, the
teardown dereferences the unset configuration pointer
(`C9_counterexample`). -/
theorem unwind_true_eq (e : Nat) (live : Resources) :
    unwind true e live = StartResult.fail e Resources.empty := rfl

set_option maxHeartbeats 1000000 in
theorem C9_theorem (env : StartEnv) (ac : Aucodec) (hm : env.mtxOk = true) :
    mcsourceStart env ac ≠ StartResult.crash ∧
    ∀ e r, mcsourceStart env ac = StartResult.fail e r →
      e ≠ 0 ∧ r = Resources.empty := by
  have hni : ¬ (env.mtxOk = false) := by simp [hm]
  constructor
  · unfold mcsourceStart
    rw [if_neg hni]
    split_ifs <;>
      first
        | (simp only [unwind_true_eq]; exact fun hc => StartResult.noConfusion hc)
        | (cases htx : env.cfg.txmode <;> simp [htx, unwind_true_eq])
  · intro e r hf
    unfold mcsourceStart at hf
    rw [if_neg hni] at hf
    split_ifs at hf <;>
      first
        | (simp only [unwind_true_eq, StartResult.fail.injEq] at hf
           obtain ⟨he, hr⟩ := hf
           subst he
           subst hr
           refine ⟨?_, rfl⟩
           first
             | assumption
             | decide
             | simp_all)
        | (cases htx : env.cfg.txmode <;>
            (try simp only [htx, unwind_true_eq, StartResult.fail.injEq] at hf) <;>
            (try exact StartResult.noConfusion hf) <;>
            (obtain ⟨he, hr⟩ := hf
             subst he
             subst hr
             refine ⟨?_, rfl⟩
             first
               | assumption
               | decide
               | simp_all))

/-- Witness for `C9_theorem` at a fully succeeding environment. -/
theorem C9_witness :
    envNoGong.mtxOk = true ∧
    mcsourceStart envNoGong acWb ≠ StartResult.crash := by
  exact ⟨rfl, (C9_theorem envNoGong acWb rfl).1⟩

/-- Claim C10: after a successful start with no announcement path, `eof`
is false and `gong_prm` is still zero-filled, so every pipeline iteration
takes the gong branch of the frame-sizing code and requests a frame of 0
samples at rate 0 with 0 channels — not the live capture parameters. -/
theorem C10_theorem (env : StartEnv) (ac : Aucodec) (st : McState)
    (hok : mcsourceStart env ac = StartResult.ok st)
    (hng : env.gongFile = false) :
    st.flags.eof = false ∧
    st.flags.gongPrm = AusrcPrm.zero ∧
    pollFrameParams st.flags = (0, 0, 0) := by
  rw [mcsourceStart_ok hok]
  refine ⟨rfl, ?_, ?_⟩
  · simp [startedState, hng]
  · simp [startedState, hng, pollFrameParams, AusrcPrm.zero]

/-- Witness for `C10_theorem` at `envNoGong`. -/
theorem C10_witness :
    mcsourceStart envNoGong acWb = StartResult.ok (startedState envNoGong acWb) ∧
    envNoGong.gongFile = false ∧
    pollFrameParams (startedState envNoGong acWb).flags = (0, 0, 0) := by
  refine ⟨by decide, rfl, ?_⟩
  exact (C10_theorem envNoGong acWb (startedState envNoGong acWb)
    (by decide) rfl).2.2

end Mcsource
